import Mathlib

/-!
Verification development for the r-integration bridge (src/src/r.js and the
error classes under src/src/errors/).

JavaScript strings are modelled as lists of characters (`Str`), so that the
source's `slice(0, -1)` becomes `List.dropLast`, `+=` becomes `++`, and every
definition stays executable.  JS `undefined` string variables are modelled as
`Option Str` with `none` for `undefined`; JS truthiness of such a variable
(`if (x)`) is `jsTruthyOpt`: `undefined` and the empty string are falsy.
-/

abbrev Str := List Char

def jsTruthyOpt : Option Str → Bool
  | none => false
  | some s => !s.isEmpty

/-! ## Parenthesis metrics

To state "syntactically balanced parentheses" we scan a string for the raw
characters `(` and `)`.  `pDelta` is the total nesting delta, `pLow` the
minimum of the running delta over all prefixes (0 for the empty prefix), and
`pHigh` its maximum.  A string is balanced when the delta is 0 and the running
delta never goes below 0. -/

def chD (c : Char) : Int :=
  if c = '(' then 1 else if c = ')' then -1 else 0

def pDelta : Str → Int
  | [] => 0
  | c :: cs => chD c + pDelta cs

def pLow : Str → Int
  | [] => 0
  | c :: cs => min 0 (chD c + pLow cs)

def pHigh : Str → Int
  | [] => 0
  | c :: cs => max 0 (chD c + pHigh cs)

def balancedStr (s : Str) : Prop := pDelta s = 0 ∧ pLow s = 0

instance (s : Str) : Decidable (balancedStr s) := by
  unfold balancedStr; infer_instance

/-- A string containing neither `(` nor `)`. -/
def parenFreeStr (s : Str) : Bool :=
  s.all (fun c => !(c = '(' ∨ c = ')'))

/-! ## Parameter values and the call synthesizer (src/src/r.js, convertParamsArray / callMethod)

`RParam` models the JavaScript parameter values the synthesizer distinguishes:
`Array.isArray` (list), `typeof == "string"` (string), `== undefined`
(undefined/null), and the default-stringified remainder, of which the integer
and boolean cases are modelled (JS stringifies them in decimal / as
`true`/`false`). -/

inductive RParam where
  | str (s : Str)
  | num (n : Int)
  | bool (b : Bool)
  | undef
  | list (ps : List RParam)

/-- Decimal digits of a natural number, most significant first (the default
JS stringification of a non-negative integer).  Fuel-structural so that it
reduces in the kernel; `n + 1` units of fuel always suffice. -/
def natToStrAux : Nat → Nat → Str → Str
  | 0, _, acc => acc
  | f + 1, n, acc =>
    let d := Char.ofNat (48 + n % 10)
    if n < 10 then d :: acc else natToStrAux f (n / 10) (d :: acc)

def natToStr (n : Nat) : Str := natToStrAux (n + 1) n []

def intToStr : Int → Str
  | .ofNat n => natToStr n
  | .negSucc n => '-' :: natToStr (n + 1)

mutual

/-- Model of `convertParamsArray` (src/src/r.js lines 212-233).  An array is
serialized by concatenating the serializations of its elements after `"c("`
(the `for` loop, `convertParamsList`), slicing off the last character
(`slice(0, -1)`, intended to drop the trailing comma) and appending `"),"`;
scalars get a trailing comma. -/
def convertParamsArray : RParam → Str
  | .list ps => ((("c(").data ++ convertParamsList ps).dropLast) ++ (("),").data)
  | .str s => '\'' :: (s ++ (("',").data))
  | .num n => intToStr n ++ [',']
  | .bool b => (if b then ("true").data else ("false").data) ++ [',']
  | .undef => ("NA,").data

/-- The `for` loop of `convertParamsArray`: concatenation of the element
serializations in order. -/
def convertParamsList : List RParam → Str
  | [] => []
  | p :: ps => convertParamsArray p ++ convertParamsList ps

end

/-- One named entry `key=value` of the `Object.entries` loop in `callMethod`
(src/src/r.js lines 258-268). -/
def namedEntry (key : Str) : RParam → Str
  | .list vs => key ++ '=' :: convertParamsArray (.list vs)
  | .str s => key ++ ('=' :: '\'' :: (s ++ (("',").data)))
  | .num n => key ++ ('=' :: intToStr n) ++ [',']
  | .bool b => key ++ ('=' :: (if b then ("true").data else ("false").data)) ++ [',']
  | .undef => key ++ (("=NA,").data)

/-- A call's parameters: a positional array or a named map (an insertion
ordered list of `Object.entries`). -/
inductive RParams where
  | positional (ps : List RParam)
  | named (kvs : List (Str × RParam))

/-- The `methodSyntax` string built by `callMethod` / `callMethodAsync` /
`callStandardMethod` (src/src/r.js lines 252-272): `name(` plus the serialized
parameters, then `slice(0, -1)` and the closing `)`. -/
def callMethodSyntax (methodName : Str) (params : RParams) : Str :=
  let ms := methodName ++ ['(']
  let ms := ms ++ (match params with
    | .positional ps => convertParamsArray (.list ps)
    | .named kvs => (kvs.map (fun kv => namedEntry kv.1 kv.2)).flatten)
  ms.dropLast ++ [')']

/-- A parameter's serialization with its trailing separator removed. -/
def serializedOnce (p : RParam) : Str := (convertParamsArray p).dropLast

def namedOnce (kv : Str × RParam) : Str := (namedEntry kv.1 kv.2).dropLast

/-- Join a list of strings with a separator (used only to *state* the shape
"every parameter serialized exactly once, separators in between"). -/
def joinSep (sep : Str) : List Str → Str
  | [] => []
  | [x] => x
  | x :: x2 :: xs => x ++ sep ++ joinSep sep (x2 :: xs)

/-- The shape the spec asserts for a built call expression: every parameter
serialized exactly once, joined by single separators, no trailing separator,
closed by `)`.  (For a positional call the source wraps the whole positional
array in one `c(...)`.) -/
def canonicalCall (methodName : Str) : RParams → Str
  | .positional ps =>
    methodName ++ (("(c(").data) ++ joinSep [','] (ps.map serializedOnce) ++ (("))").data)
  | .named kvs =>
    methodName ++ '(' :: (joinSep [','] (kvs.map namedOnce) ++ [')'])

mutual

/-- Input-side nesting depth of a parameter value. -/
def paramDepth : RParam → Nat
  | .list ps => 1 + paramDepthList ps
  | _ => 0

def paramDepthList : List RParam → Nat
  | [] => 0
  | p :: ps => max (paramDepth p) (paramDepthList ps)

end

mutual

/-- "Good" parameters: every list at every nesting level is non-empty and
every string scalar is parenthesis-free (so that raw parenthesis counting
measures exactly the synthesizer's own parentheses). -/
def goodParam : RParam → Bool
  | .list ps => !ps.isEmpty && goodParamList ps
  | .str s => parenFreeStr s
  | _ => true

def goodParamList : List RParam → Bool
  | [] => true
  | p :: ps => goodParam p && goodParamList ps

end

def goodParams : RParams → Bool
  | .positional ps => goodParam (.list ps)
  | .named kvs =>
    !kvs.isEmpty && kvs.all (fun kv => parenFreeStr kv.1 && goodParam kv.2)

/-! ## Platform classifier and process executor (src/src/r.js lines 16-71) -/

/-- Model of `getCurrentOs` (src/src/r.js lines 16-29): `win32` maps to
`win`; `linux`, `openbsd` and `freebsd` map to `lin`; everything else falls
through to `mac`. -/
def getCurrentOs (processPlatform : Str) : Str :=
  if processPlatform = ("win32").data then ("win").data
  else if processPlatform = ("linux").data ∨ processPlatform = ("openbsd").data
      ∨ processPlatform = ("freebsd").data then ("lin").data
  else ("mac").data

/-- A JavaScript `Error` object, reduced to the data the bridge consumes. -/
structure JsError where
  message : Str
deriving DecidableEq

/-- Behaviour of one `childProcess.execSync` call: either it returns the
subprocess's stdout, or it throws an error (non-zero exit or spawn failure). -/
inductive ExecOutcome where
  | success (stdout : Str)
  | failure (error : JsError)
deriving DecidableEq

/-- The `{stdout, stderr}` record returned by `executeShellCommand`; a field
that was never assigned is `undefined` (`none`). -/
structure ShellResult where
  stdout : Option Str
  stderr : Option JsError
deriving DecidableEq

/-- Model of `executeShellCommand` (src/src/r.js lines 38-54): on success
`stdout` holds the output and `stderr` stays `undefined`; when `execSync`
throws, `stderr` holds the caught error and `stdout` stays `undefined`. -/
def executeShellCommand : ExecOutcome → ShellResult
  | .success out => ⟨some out, none⟩
  | .failure e => ⟨none, some e⟩

/-- Behaviour of one `childProcess.exec` callback `(err, stdout, stderr)`:
`err` is non-null exactly when the subprocess failed; `stdout` and
`stderrStream` are the captured stream contents (always strings). -/
structure AsyncOutcome where
  err : Option JsError
  stdout : Str
  stderrStream : Str
deriving DecidableEq

/-- The record `execShellCommandAsync` resolves with: both fields are always
present (plain strings). -/
structure AsyncShellResult where
  stderr : Str
  stdout : Str
deriving DecidableEq

/-- Model of `execShellCommandAsync` (src/src/r.js lines 62-71): resolves with
`{stderr: err ? err.message : stderr, stdout}`. -/
def execShellCommandAsync (o : AsyncOutcome) : AsyncShellResult :=
  ⟨match o.err with
    | some e => e.message
    | none => o.stderrStream,
   o.stdout⟩

/-! ## Engine locator (src/src/r.js lines 80-125 and src/src/errors/) -/

/-- A locator failure: `REngineNotFoundError` (carrying the `path` variable
at throw time, which can be `undefined`) or the `Cannot determine OS type`
error of the `default` switch branch. -/
inductive LocateError where
  | engineNotFound (path : Option Str)
  | cannotDetermineOs
deriving DecidableEq

/-- The message of `REngineNotFoundError`
(src/src/errors/r-engine-not-found-error.js): it interpolates the attempted
path (JS renders `undefined` as the literal text `undefined`). -/
def rEngineNotFoundMessage (path : Option Str) : Str :=
  ("R Engine not found. See www.r-project.org. (path: ").data
    ++ (match path with
        | some p => p
        | none => ("undefined").data)
    ++ [')']

/-- `path.join` of two segments for an already-normalized left segment:
inserts the separator unless the left side is empty or already ends with
the separator. -/
def pjoin2 (sep : Char) (a b : Str) : Str :=
  if a.isEmpty then b
  else if a.getLast? = some sep then a ++ b
  else a ++ sep :: b

/-- JS `String.replace` with the plain-string pattern `"\n"`: removes only
the first newline occurrence (src/src/r.js line 106). -/
def removeFirstNewline : Str → Str
  | [] => []
  | c :: cs => if c = '\n' then cs else c :: removeFirstNewline cs

/-- The environment a locator/runner call observes: the host platform
identifier, the filesystem, and the behaviour of the shell for each command
line (synchronous and asynchronous). -/
structure Env where
  platform : Str
  fsExists : Str → Bool
  readdir : Str → List Str
  shell : Str → ExecOutcome
  shellAsync : Str → AsyncOutcome

/-- Model of `getRscriptPath` (src/src/r.js lines 80-125).  `installationDir`
starts as the falsy placeholder `0` (`none`); the final
`if (!installationDir) throw new REngineNotFoundError(path)` is the trailing
truthiness check. -/
def getRscriptPath (env : Env) (path0 : Option Str) : Except LocateError Str :=
  let os := getCurrentOs env.platform
  if os = ("win").data then
    let path : Str :=
      if jsTruthyOpt path0 then path0.getD [] else ("C:\\Program Files\\R").data
    let instDir : Option Str :=
      if env.fsExists path then
        let dirContent := env.readdir path
        if dirContent.length ≠ 0 then
          some (pjoin2 '\\' (pjoin2 '\\' (pjoin2 '\\' path (dirContent.getLastD []))
            (("bin").data)) (("Rscript.exe").data))
        else none
      else none
    if jsTruthyOpt instDir then .ok (instDir.getD []) else .error (.engineNotFound (some path))
  else if os = ("mac").data ∨ os = ("lin").data then
    if jsTruthyOpt path0 then
      let path := pjoin2 '/' (path0.getD []) (("Rscript").data)
      let instDir : Option Str := if env.fsExists path then some path else none
      if jsTruthyOpt instDir then .ok (instDir.getD [])
      else .error (.engineNotFound (some path))
    else
      let path : Option Str := (executeShellCommand (env.shell (("which Rscript").data))).stdout
      let instDir : Option Str :=
        if jsTruthyOpt path then some (removeFirstNewline (path.getD [])) else none
      if jsTruthyOpt instDir then .ok (instDir.getD [])
      else .error (.engineNotFound path)
  else .error .cannotDetermineOs

/-! ## Output parser (src/src/r.js, filterMultiline, lines 373-419) -/

def isDigitChar (c : Char) : Bool := '0' ≤ c ∧ c ≤ '9'

/-- The character class of the JS regex `\s` (as used by
`/\t*\s*\n*$/`, `/[\s\t]+/` and friends). -/
def isJsWs (c : Char) : Bool :=
  c = ' ' ∨ c = '\t' ∨ c = '\n' ∨ c = '\r' ∨ c = '\x0b' ∨ c = '\x0c'
    ∨ c.toNat = 0xa0 ∨ c.toNat = 0x1680 ∨ (0x2000 ≤ c.toNat ∧ c.toNat ≤ 0x200a)
    ∨ c.toNat = 0x2028 ∨ c.toNat = 0x2029 ∨ c.toNat = 0x202f ∨ c.toNat = 0x205f
    ∨ c.toNat = 0x3000 ∨ c.toNat = 0xfeff

/-- After an opening `[`, match one or more digits, then `] ` (the tail of
the regex `/\[\d+\] /`); on success return the remaining input.  Backtracking
cannot help this pattern, so maximal-munch digits are exact. -/
def matchIdxTail (s : Str) : Option Str :=
  let ds := s.takeWhile isDigitChar
  if ds.isEmpty then none
  else
    match s.dropWhile isDigitChar with
    | ']' :: ' ' :: r => some r
    | _ => none

/-- One left-to-right pass of `commandResult.replace(/\[\d+\] /g, "")`
(src/src/r.js line 380): every occurrence of `[<digits>] ` is removed, and
scanning resumes after the removed match.  Fuel-structural; one unit of fuel
per consumed character, so `s.length` always suffices. -/
def stripIdxAux : Nat → Str → Str
  | 0, s => s
  | _ + 1, [] => []
  | f + 1, c :: cs =>
    if c = '[' then
      match matchIdxTail cs with
      | some r => stripIdxAux f r
      | none => c :: stripIdxAux f cs
    else c :: stripIdxAux f cs

def stripIdx (s : Str) : Str := stripIdxAux s.length s

/-- Effect of `replace(/\t*\s*\n*$/g, "")` (non-Windows) and
`replace(/\t*\s*[\r\n]*$/g, "")` (Windows): since `\s*` alone can consume any
whitespace suffix and the match is anchored at `$`, both regexes remove
exactly the maximal whitespace-only suffix. -/
def stripTrailingWs (s : Str) : Str := (s.reverse.dropWhile isJsWs).reverse

/-- Effect of `replace(/[\s\t]+/g, sep)`: every maximal run of whitespace
characters is replaced by one copy of `sep`. -/
def collapseWs (sep : Str) : Str → Str
  | [] => []
  | c :: cs =>
    if isJsWs c then
      match cs with
      | [] => sep
      | c2 :: _ => if isJsWs c2 then collapseWs sep cs else sep ++ collapseWs sep cs
    else c :: collapseWs sep cs

/-- JS `String.split` with the separator regex `/[\n]+/` (or `/[\r\n]+/`):
runs of separator characters delimit tokens; a leading or trailing run
produces an empty first/last token, and splitting the empty string yields
one empty token. -/
def consHead (c : Char) : List Str → List Str
  | [] => [[c]]
  | t :: ts => (c :: t) :: ts

def jsSplit (p : Char → Bool) : Str → List Str
  | [] => [[]]
  | c :: cs =>
    if p c then
      match cs with
      | [] => [] :: jsSplit p cs
      | c2 :: _ =>
        if p c2 then jsSplit p cs else [] :: jsSplit p cs
    else consHead c (jsSplit p cs)

/-! ### JSON values and `JSON.parse` -/

/-- A parsed JSON value.  A number keeps its source lexeme (the bridge never
does arithmetic on it, so the text is the faithful representation). -/
inductive JsValue where
  | jnull
  | jbool (b : Bool)
  | jnum (lexeme : Str)
  | jstr (s : Str)
  | jarr (elems : List JsValue)
  | jobj (fields : List (Str × JsValue))

def isJsonWs (c : Char) : Bool := c = ' ' ∨ c = '\t' ∨ c = '\n' ∨ c = '\r'

def hexVal (c : Char) : Option Nat :=
  if '0' ≤ c ∧ c ≤ '9' then some (c.toNat - 48)
  else if 'a' ≤ c ∧ c ≤ 'f' then some (c.toNat - 87)
  else if 'A' ≤ c ∧ c ≤ 'F' then some (c.toNat - 55)
  else none

def escChar : Char → Option Char
  | '"' => some '"'
  | '\\' => some '\\'
  | '/' => some '/'
  | 'b' => some '\x08'
  | 'f' => some '\x0c'
  | 'n' => some '\n'
  | 'r' => some '\r'
  | 't' => some '\t'
  | _ => none

/-- Decode a `\uXXXX` code unit.  A valid scalar value becomes that
character; surrogate halves (which Lean's `Char` cannot hold) become
`U+FFFD`. -/
def decodeU (n : Nat) : Char :=
  if n < 0xd800 ∨ (0xdfff < n ∧ n < 0x110000) then Char.ofNat n else '�'

/-- Body of a JSON string after the opening quote: decode up to the closing
quote, rejecting raw control characters and invalid escapes. -/
def parseJStringBody : Str → Option (Str × Str)
  | [] => none
  | '"' :: rest => some ([], rest)
  | '\\' :: rest =>
    match rest with
    | 'u' :: h1 :: h2 :: h3 :: h4 :: r =>
      match hexVal h1, hexVal h2, hexVal h3, hexVal h4 with
      | some a, some b, some c, some d =>
        (parseJStringBody r).map
          (fun p => (decodeU (((a * 16 + b) * 16 + c) * 16 + d) :: p.1, p.2))
      | _, _, _, _ => none
    | e :: r =>
      match escChar e with
      | some c => (parseJStringBody r).map (fun p => (c :: p.1, p.2))
      | none => none
    | [] => none
  | c :: rest =>
    if c.toNat < 32 then none
    else (parseJStringBody rest).map (fun p => (c :: p.1, p.2))

/-- The optional fraction part of a JSON number: returns its lexeme (possibly
empty) and the rest. -/
def parseFracPart : Str → Option (Str × Str)
  | '.' :: r =>
    let ds := r.takeWhile isDigitChar
    if ds.isEmpty then none else some ('.' :: ds, r.dropWhile isDigitChar)
  | s => some ([], s)

/-- The optional exponent part of a JSON number. -/
def parseExpPart : Str → Option (Str × Str)
  | [] => some ([], [])
  | c :: r =>
    if c = 'e' ∨ c = 'E' then
      match r with
      | '+' :: t =>
        let ds := t.takeWhile isDigitChar
        if ds.isEmpty then none
        else some (c :: '+' :: ds, t.dropWhile isDigitChar)
      | '-' :: t =>
        let ds := t.takeWhile isDigitChar
        if ds.isEmpty then none
        else some (c :: '-' :: ds, t.dropWhile isDigitChar)
      | t =>
        let ds := t.takeWhile isDigitChar
        if ds.isEmpty then none
        else some (c :: ds, t.dropWhile isDigitChar)
    else some ([], c :: r)

/-- A JSON number starting at the given input (sign already included). -/
def parseNum (s : Str) : Option (JsValue × Str) :=
  let signed := match s with
    | '-' :: r => (['-'], r)
    | _ => (([] : Str), s)
  let sg := signed.1
  let s1 := signed.2
  let ip := s1.takeWhile isDigitChar
  if ip.isEmpty then none
  else if 1 < ip.length ∧ ip.head? = some '0' then none
  else
    match parseFracPart (s1.dropWhile isDigitChar) with
    | none => none
    | some (fp, s2) =>
      match parseExpPart s2 with
      | none => none
      | some (ep, s3) => some (.jnum (sg ++ ip ++ fp ++ ep), s3)

mutual

/-- One JSON value, leading whitespace allowed; returns the value and the
unconsumed input.  Fuel-structural; every recursive call consumes input, so
`2 * length + 4` units of fuel always suffice. -/
def parseValue : Nat → Str → Option (JsValue × Str)
  | 0, _ => none
  | f + 1, s =>
    match s.dropWhile isJsonWs with
    | [] => none
    | c :: rest =>
      if c = '{' then
        match rest.dropWhile isJsonWs with
        | '}' :: r => some (.jobj [], r)
        | _ => parseObjFields f rest []
      else if c = '[' then
        match rest.dropWhile isJsonWs with
        | ']' :: r => some (.jarr [], r)
        | _ => parseArrElems f rest []
      else if c = '"' then
        (parseJStringBody rest).map (fun p => (.jstr p.1, p.2))
      else if c = 't' then
        if rest.take 3 = ("rue").data then some (.jbool true, rest.drop 3) else none
      else if c = 'f' then
        if rest.take 4 = ("alse").data then some (.jbool false, rest.drop 4) else none
      else if c = 'n' then
        if rest.take 3 = ("ull").data then some (.jnull, rest.drop 3) else none
      else parseNum (c :: rest)

/-- Comma-separated array elements up to the closing `]`. -/
def parseArrElems : Nat → Str → List JsValue → Option (JsValue × Str)
  | 0, _, _ => none
  | f + 1, s, acc =>
    match parseValue f s with
    | none => none
    | some (v, r) =>
      match r.dropWhile isJsonWs with
      | ',' :: r2 => parseArrElems f r2 (acc ++ [v])
      | ']' :: r2 => some (.jarr (acc ++ [v]), r2)
      | _ => none

/-- Comma-separated `"key": value` fields up to the closing `}`. -/
def parseObjFields : Nat → Str → List (Str × JsValue) → Option (JsValue × Str)
  | 0, _, _ => none
  | f + 1, s, acc =>
    match s.dropWhile isJsonWs with
    | '"' :: r =>
      match parseJStringBody r with
      | none => none
      | some (key, r2) =>
        match r2.dropWhile isJsonWs with
        | ':' :: r3 =>
          match parseValue f r3 with
          | none => none
          | some (v, r4) =>
            match r4.dropWhile isJsonWs with
            | ',' :: r5 => parseObjFields f r5 (acc ++ [(key, v)])
            | '}' :: r5 => some (.jobj (acc ++ [(key, v)]), r5)
            | _ => none
        | _ => none
    | _ => none

end

/-- Model of `JSON.parse(text)` as used by `filterMultiline`: one JSON value
surrounded by optional whitespace; anything else (including the empty
string) throws, i.e. yields `none`. -/
def jsonParse (s : Str) : Option JsValue :=
  match parseValue (2 * s.length + 4) s with
  | some (v, rest) => if (rest.dropWhile isJsonWs).isEmpty then some v else none
  | none => none

/-! ### filterMultiline -/

/-- One entry of the parsed-output sequence: the JS values `undefined`
(missing marker), `NaN`, a plain string, or — for the whole-document case —
one structured JSON value. -/
inductive RToken where
  | undef
  | nan
  | strTok (s : Str)
  | jsonVal (v : JsValue)

/-- The per-token mapping of `filterMultiline` (src/src/r.js lines 404-413):
the literal `NA` becomes `undefined`, the literal `NaN` becomes `NaN`, any
other token keeps its text with every `"` removed. -/
def tokenMap (t : Str) : RToken :=
  if t = ("NA").data then .undef
  else if t = ("NaN").data then .nan
  else .strTok (t.filter (fun c => c ≠ '"'))

/-- Model of `filterMultiline` (src/src/r.js lines 373-419), parameterized by
the platform classification `os` (the source reads it via `getCurrentOs()`):
strip `[<digits>] ` prefixes, strip the trailing whitespace run, collapse
internal whitespace runs to the platform separator, then either decode the
whole string as one JSON value or split it into mapped tokens. -/
def filterMultiline (os : Str) (commandResult : Str) : List RToken :=
  let cr := stripIdx commandResult
  let cr :=
    if os = ("win").data then collapseWs (("\r\n").data) (stripTrailingWs cr)
    else collapseWs (("\n").data) (stripTrailingWs cr)
  match jsonParse cr with
  | some v => [.jsonVal v]
  | none =>
    let data :=
      if os = ("win").data then jsSplit (fun c => c = '\r' ∨ c = '\n') cr
      else jsSplit (fun c => c = '\n') cr
    data.map tokenMap

/-! ## Invocation façade (src/src/r.js lines 134-207 and 245-363) -/

/-- The value `callMethod` and friends hand to `new RScriptError(...)`: the
synchronous path passes the `stderr` field of `executeShellCommand` (an
`Error` object, or `undefined` on the empty-stdout success path); the
asynchronous path always passes a string. -/
inductive Diag where
  | jsUndefined
  | errObj (e : JsError)
  | text (s : Str)
deriving DecidableEq

/-- The raw textual content of a diagnostic (`undefined` reads as empty). -/
def diagContent : Diag → Str
  | .jsUndefined => []
  | .errObj e => e.message
  | .text s => s

/-- Modelled from the spec: the class `RScriptError` is referenced by
src/src/errors/index.js but its file (r-script-error.js) is not in the
sources; per the spec (§6, §7) the script-execution error carries the
engine's raw diagnostic, i.e. the constructor argument. -/
structure RScriptError where
  diag : Diag
deriving DecidableEq

/-- Any error a façade operation can raise. -/
inductive RError where
  | locate (e : LocateError)
  | script (e : RScriptError)
  | fileNotFound (fileLocation : Str)
  | validation
deriving DecidableEq

/-- Wrap the sync executor's `stderr` field for `new RScriptError(...)`. -/
def syncDiag : Option JsError → Diag
  | none => .jsUndefined
  | some e => .errObj e

/-- The command line `"<rpath>" -e "<command>"` (src/src/r.js line 138). -/
def buildECmd (rpath command : Str) : Str :=
  ('"' :: rpath) ++ (("\" -e \"").data) ++ command ++ ['"']

/-- The command line `"<rpath>" "<file>"` (src/src/r.js line 195). -/
def buildScriptCmd (rpath fileLocation : Str) : Str :=
  ('"' :: rpath) ++ (("\" \"").data) ++ fileLocation ++ ['"']

/-- Model of `executeRCommand` (src/src/r.js lines 134-149): locate the
engine, run `"<rpath>" -e "<command>"` synchronously, and parse the stdout if
it is truthy; otherwise throw `RScriptError(commandResult.stderr)`. -/
def executeRCommand (env : Env) (command : Str) (loc : Option Str) :
    Except RError (List RToken) :=
  match getRscriptPath env loc with
  | .error e => .error (.locate e)
  | .ok rpath =>
    let commandResult := executeShellCommand (env.shell (buildECmd rpath command))
    if jsTruthyOpt commandResult.stdout then
      .ok (filterMultiline (getCurrentOs env.platform) (commandResult.stdout.getD []))
    else
      .error (.script ⟨syncDiag commandResult.stderr⟩)

/-- Model of `executeRCommandAsync` (src/src/r.js lines 158-173): identical
shape, but the execution result comes from `execShellCommandAsync`, whose
`stdout`/`stderr` fields are plain strings. -/
def executeRCommandAsync (env : Env) (command : Str) (loc : Option Str) :
    Except RError (List RToken) :=
  match getRscriptPath env loc with
  | .error e => .error (.locate e)
  | .ok rpath =>
    let commandResult := execShellCommandAsync (env.shellAsync (buildECmd rpath command))
    if !commandResult.stdout.isEmpty then
      .ok (filterMultiline (getCurrentOs env.platform) commandResult.stdout)
    else
      .error (.script ⟨.text commandResult.stderr⟩)

/-- Model of `executeRScript` (src/src/r.js lines 186-207): locate the
engine, fail if the script file does not exist, then run
`"<rpath>" "<file>"` with the same success/failure rule. -/
def executeRScript (env : Env) (fileLocation : Str) (loc : Option Str) :
    Except RError (List RToken) :=
  match getRscriptPath env loc with
  | .error e => .error (.locate e)
  | .ok rpath =>
    if !env.fsExists fileLocation then .error (.fileNotFound fileLocation)
    else
      let commandResult := executeShellCommand (env.shell (buildScriptCmd rpath fileLocation))
      if jsTruthyOpt commandResult.stdout then
        .ok (filterMultiline (getCurrentOs env.platform) (commandResult.stdout.getD []))
      else
        .error (.script ⟨syncDiag commandResult.stderr⟩)

/-- Model of `callMethod` (src/src/r.js lines 245-277): validate, synthesize
the call expression, and run `source('<file>'); print(<call>)` as an
expression.  (`params` is an array or object, hence always truthy.) -/
def callMethod (env : Env) (fileLocation methodName : Str) (params : RParams)
    (loc : Option Str) : Except RError (List RToken) :=
  if methodName.isEmpty ∨ fileLocation.isEmpty then .error .validation
  else
    executeRCommand env
      ((("source('").data) ++ fileLocation ++ (("'); print(").data)
        ++ callMethodSyntax methodName params ++ [')'])
      loc

/-- Model of `callMethodAsync` (src/src/r.js lines 288-320). -/
def callMethodAsync (env : Env) (fileLocation methodName : Str) (params : RParams)
    (loc : Option Str) : Except RError (List RToken) :=
  if methodName.isEmpty ∨ fileLocation.isEmpty then .error .validation
  else
    executeRCommandAsync env
      ((("source('").data) ++ fileLocation ++ (("'); print(").data)
        ++ callMethodSyntax methodName params ++ [')'])
      loc

/-- Model of `callStandardMethod` (src/src/r.js lines 331-363): no sourcing
step, synchronous only. -/
def callStandardMethod (env : Env) (methodName : Str) (params : RParams)
    (loc : Option Str) : Except RError (List RToken) :=
  if methodName.isEmpty then .error .validation
  else
    executeRCommand env
      ((("print(").data) ++ callMethodSyntax methodName params ++ [')'])
      loc

/-- A façade outcome up to diagnostic *content*: used to compare the
synchronous and asynchronous runners, whose error objects differ in kind
(an `Error` object vs. a string) but carry the same text. -/
inductive Outcome where
  | parsed (toks : List RToken)
  | scriptFail (diag : Str)
  | locateFail (e : LocateError)
  | otherFail

def outcomeView : Except RError (List RToken) → Outcome
  | .ok toks => .parsed toks
  | .error (.script e) => .scriptFail (diagContent e.diag)
  | .error (.locate e) => .locateFail e
  | .error (.fileNotFound _) => .otherFail
  | .error .validation => .otherFail

/-- A Unix-classified host with an empty filesystem (nothing exists) and a
failing shell: used to exercise the engine-not-found branches. -/
def linNoFsEnv : Env :=
  { platform := ("linux").data
    fsExists := fun _ => false
    readdir := fun _ => []
    shell := fun _ => .failure ⟨("which failed").data⟩
    shellAsync := fun _ => ⟨none, [], []⟩ }

/-- A Unix-classified host whose shell resolves `which Rscript` but fails
every other command. -/
def locEnv : Env :=
  { platform := ("linux").data
    fsExists := fun _ => true
    readdir := fun _ => []
    shell := fun c =>
      if c = ("which Rscript").data then .success (("/usr/bin/Rscript\n").data)
      else .failure ⟨("boom").data⟩
    shellAsync := fun _ => ⟨none, [], []⟩ }

/-- A Unix-classified host whose subprocesses always succeed printing `7`
on both the synchronous and the asynchronous path. -/
def agreeEnv : Env :=
  { platform := ("linux").data
    fsExists := fun _ => false
    readdir := fun _ => []
    shell := fun _ => .success (("7\n").data)
    shellAsync := fun _ => ⟨none, ("7\n").data, []⟩ }

/-- A Unix-classified host whose subprocesses always exit successfully but
stay completely silent (empty stdout, empty stderr). -/
def silentEnv : Env :=
  { platform := ("linux").data
    fsExists := fun _ => true
    readdir := fun _ => []
    shell := fun _ => .success []
    shellAsync := fun _ => ⟨none, [], []⟩ }

/-! ## Claim C4 -/

/-- The normalization stage of the output parser: strip `[<digits>] `
prefixes, strip the trailing whitespace run, collapse internal whitespace
runs to the platform separator. -/
def normalizeOut (os raw : Str) : Str :=
  if os = ("win").data then collapseWs (("\r\n").data) (stripTrailingWs (stripIdx raw))
  else collapseWs (("\n").data) (stripTrailingWs (stripIdx raw))

/-- The platform separator class the fallback split uses. -/
def sepClass (os : Str) : Char → Bool :=
  if os = ("win").data then fun c => c = '\r' ∨ c = '\n' else fun c => c = '\n'

/-! # Theorems -/

theorem pLow_nonpos (s : Str) : pLow s ≤ 0 := by
  cases s with
  | nil => simp [pLow]
  | cons c cs => simp [pLow]

theorem pHigh_nonneg (s : Str) : 0 ≤ pHigh s := by
  cases s with
  | nil => simp [pHigh]
  | cons c cs => simp [pHigh]

theorem pDelta_append (xs ys : Str) :
    pDelta (xs ++ ys) = pDelta xs + pDelta ys := by
  induction xs with
  | nil => simp [pDelta]
  | cons c cs ih => simp [pDelta, ih]; ring

theorem pLow_append (xs ys : Str) :
    pLow (xs ++ ys) = min (pLow xs) (pDelta xs + pLow ys) := by
  induction xs with
  | nil =>
    simp [pLow, pDelta]
    exact pLow_nonpos ys
  | cons c cs ih =>
    simp only [List.cons_append, List.append_eq, pLow, pDelta]
    rw [ih]
    omega

theorem pHigh_append (xs ys : Str) :
    pHigh (xs ++ ys) = max (pHigh xs) (pDelta xs + pHigh ys) := by
  induction xs with
  | nil =>
    simp [pHigh, pDelta]
    exact pHigh_nonneg ys
  | cons c cs ih =>
    simp only [List.cons_append, List.append_eq, pHigh, pDelta]
    rw [ih]
    omega

theorem parenFree_metrics (s : Str) (h : parenFreeStr s = true) :
    pDelta s = 0 ∧ pLow s = 0 ∧ pHigh s = 0 := by
  induction s with
  | nil => simp [pDelta, pLow, pHigh]
  | cons c cs ih =>
    simp only [parenFreeStr, List.all_cons, Bool.and_eq_true] at h
    have hc : chD c = 0 := by
      unfold chD
      simp only [Bool.not_eq_true'] at h
      have := h.1
      split <;> simp_all
    have ihr := ih (by simpa [parenFreeStr] using h.2)
    simp [pDelta, pLow, pHigh, hc, ihr.1, ihr.2.1, ihr.2.2]

theorem convertParamsList_eq_flatten (ps : List RParam) :
    convertParamsList ps = (ps.map convertParamsArray).flatten := by
  induction ps with
  | nil => rfl
  | cons p ps ih => simp [convertParamsList, ih]

theorem goodParamList_iff (ps : List RParam) :
    goodParamList ps = true ↔ ∀ p ∈ ps, goodParam p = true := by
  induction ps with
  | nil => simp [goodParamList]
  | cons p ps ih => simp [goodParamList, ih]

/-! ## Characterization of the synthesizer output -/

theorem convertParamsArray_comma (p : RParam) :
    convertParamsArray p = serializedOnce p ++ [','] := by
  have hb : ∃ b, convertParamsArray p = b ++ [','] := by
    match p with
    | .list ps =>
      refine ⟨((("c(").data ++ convertParamsList ps).dropLast) ++ [')'], ?_⟩
      simp [convertParamsArray]
    | .str s => exact ⟨'\'' :: (s ++ ['\'']), by simp [convertParamsArray]⟩
    | .num n => exact ⟨intToStr n, rfl⟩
    | .bool b => exact ⟨if b then ("true").data else ("false").data, rfl⟩
    | .undef => exact ⟨("NA").data, rfl⟩
  obtain ⟨b, hb⟩ := hb
  rw [hb]
  unfold serializedOnce
  rw [hb, List.dropLast_concat]

theorem namedEntry_comma (k : Str) (v : RParam) :
    namedEntry k v = namedOnce (k, v) ++ [','] := by
  have hb : ∃ b, namedEntry k v = b ++ [','] := by
    match v with
    | .list vs =>
      refine ⟨k ++ '=' :: serializedOnce (.list vs), ?_⟩
      show k ++ '=' :: convertParamsArray (.list vs) = _
      rw [convertParamsArray_comma]
      simp
    | .str s => exact ⟨k ++ '=' :: '\'' :: (s ++ ['\'']), by simp [namedEntry]⟩
    | .num n => exact ⟨k ++ '=' :: intToStr n, by simp [namedEntry]⟩
    | .bool b => exact ⟨k ++ ('=' :: (if b then ("true").data else ("false").data)),
        by simp [namedEntry]⟩
    | .undef => exact ⟨k ++ (("=NA").data), by simp [namedEntry]⟩
  obtain ⟨b, hb⟩ := hb
  rw [hb]
  unfold namedOnce
  rw [hb, List.dropLast_concat]

/-- Flattening a non-empty list of comma-terminated strings yields the
separator-joined list of their comma-stripped forms, plus one trailing
comma (which the source's `slice(0, -1)` then removes). -/
theorem flatten_comma_terminated (ls : List Str)
    (h : ∀ l ∈ ls, l = l.dropLast ++ [',']) (hne : ls ≠ []) :
    ls.flatten = joinSep [','] (ls.map List.dropLast) ++ [','] := by
  induction ls with
  | nil => exact absurd rfl hne
  | cons l ls ih =>
    cases ls with
    | nil =>
      simp only [List.flatten_cons, List.flatten_nil, List.append_nil, List.map_cons,
        List.map_nil, joinSep]
      exact h l (by simp)
    | cons l2 ls2 =>
      have hrest := ih (fun x hx => h x (by simp [hx])) (by simp)
      simp only [List.flatten_cons] at hrest ⊢
      rw [hrest]
      have hl := h l (by simp)
      conv_lhs => rw [hl]
      show _ = joinSep [','] (l.dropLast :: (l2 :: ls2).map List.dropLast) ++ [',']
      rw [show joinSep [','] (l.dropLast :: (l2 :: ls2).map List.dropLast) =
            l.dropLast ++ [','] ++ joinSep [','] ((l2 :: ls2).map List.dropLast) by
        simp [joinSep]]
      simp

theorem convertParamsList_comma (ps : List RParam) (hne : ps ≠ []) :
    convertParamsList ps = joinSep [','] (ps.map serializedOnce) ++ [','] := by
  rw [convertParamsList_eq_flatten]
  rw [flatten_comma_terminated (ps.map convertParamsArray)
    (by
      intro l hl
      obtain ⟨p, _, rfl⟩ := List.mem_map.mp hl
      exact convertParamsArray_comma p)
    (by simpa using hne)]
  congr 1
  congr 1
  rw [List.map_map]
  rfl

/-- The structurally recursive shape of a serialized non-empty list: one
`c( ... )` wrapper joining the recursively serialized elements in order,
plus the scalar-style trailing comma. -/
theorem convertParamsArray_list_shape (ps : List RParam) (hne : ps ≠ []) :
    convertParamsArray (.list ps) =
      (("c(").data) ++ joinSep [','] (ps.map serializedOnce) ++ (("),").data) := by
  show ((("c(").data ++ convertParamsList ps).dropLast) ++ (("),").data) = _
  rw [convertParamsList_comma ps hne]
  rw [show (("c(").data ++ (joinSep [','] (ps.map serializedOnce) ++ [','])) =
        ((("c(").data ++ joinSep [','] (ps.map serializedOnce)) ++ [',']) by simp]
  rw [List.dropLast_concat]

/-! ## Parenthesis metrics of serialized parameters -/

theorem natToStrAux_parenFree (f : Nat) :
    ∀ (n : Nat) (acc : Str), parenFreeStr acc = true →
      parenFreeStr (natToStrAux f n acc) = true := by
  induction f with
  | zero => intro n acc hacc; exact hacc
  | succ f ih =>
    intro n acc hacc
    have hd : parenFreeStr (Char.ofNat (48 + n % 10) :: acc) = true := by
      have hk : n % 10 < 10 := Nat.mod_lt _ (by norm_num)
      simp only [parenFreeStr, List.all_cons, Bool.and_eq_true]
      refine ⟨?_, by simpa [parenFreeStr] using hacc⟩
      set k := n % 10 with hkdef
      interval_cases k <;> decide
    unfold natToStrAux
    split
    · exact hd
    · exact ih (n / 10) _ hd

theorem intToStr_parenFree (n : Int) : parenFreeStr (intToStr n) = true := by
  cases n with
  | ofNat m => exact natToStrAux_parenFree _ _ _ (by decide)
  | negSucc m =>
    simp only [intToStr, parenFreeStr, List.all_cons, Bool.and_eq_true]
    exact ⟨by decide, natToStrAux_parenFree _ _ _ (by decide)⟩

/-- Removing the trailing comma of a balanced comma-terminated string keeps
it balanced and keeps its maximum nesting depth. -/
theorem dropComma_metrics (b : Str)
    (hd : pDelta (b ++ [',']) = 0) (hl : pLow (b ++ [',']) = 0) :
    pDelta b = 0 ∧ pLow b = 0 ∧ pHigh b = pHigh (b ++ [',']) := by
  rw [pDelta_append] at hd
  rw [pLow_append] at hl
  rw [pHigh_append]
  have h1 : pDelta [','] = 0 := by decide
  have h2 : pLow [','] = 0 := by decide
  have h3 : pHigh [','] = 0 := by decide
  have h4 := pLow_nonpos b
  have h5 := pHigh_nonneg b
  rw [h1] at hd
  rw [h2] at hl
  rw [h3]
  omega

mutual

theorem convertParamsArray_metrics (p : RParam) (h : goodParam p = true) :
    pDelta (convertParamsArray p) = 0 ∧ pLow (convertParamsArray p) = 0 ∧
      pHigh (convertParamsArray p) = (paramDepth p : Int) := by
  match p with
  | .str s =>
    have hs := parenFree_metrics s (by simpa [goodParam] using h)
    have e : convertParamsArray (.str s) = ['\''] ++ (s ++ (("',").data)) := rfl
    have ed : paramDepth (.str s) = 0 := rfl
    rw [e, ed]
    simp only [pDelta_append, pLow_append, pHigh_append]
    have c1 : pDelta ['\''] = 0 := by decide
    have c2 : pLow ['\''] = 0 := by decide
    have c3 : pHigh ['\''] = 0 := by decide
    have c4 : pDelta (("',").data) = 0 := by decide
    have c5 : pLow (("',").data) = 0 := by decide
    have c6 : pHigh (("',").data) = 0 := by decide
    rw [c1, c2, c3, c4, c5, c6, hs.1, hs.2.1, hs.2.2]
    norm_num
  | .num n =>
    have hs := parenFree_metrics (intToStr n) (intToStr_parenFree n)
    have e : convertParamsArray (.num n) = intToStr n ++ [','] := rfl
    have ed : paramDepth (.num n) = 0 := rfl
    rw [e, ed]
    simp only [pDelta_append, pLow_append, pHigh_append]
    have c1 : pDelta [','] = 0 := by decide
    have c2 : pLow [','] = 0 := by decide
    have c3 : pHigh [','] = 0 := by decide
    rw [c1, c2, c3, hs.1, hs.2.1, hs.2.2]
    norm_num
  | .bool b =>
    cases b with
    | true => exact ⟨by decide, by decide, by decide⟩
    | false => exact ⟨by decide, by decide, by decide⟩
  | .undef => exact ⟨by decide, by decide, by decide⟩
  | .list ps =>
    rw [goodParam] at h
    simp only [Bool.and_eq_true, Bool.not_eq_true'] at h
    obtain ⟨hne0, hgood⟩ := h
    have hne : ps ≠ [] := by cases ps <;> simp_all
    have hcl := convertParamsList_metrics ps hgood
    have hcomma : convertParamsList ps = (convertParamsList ps).dropLast ++ [','] := by
      conv_lhs => rw [convertParamsList_comma ps hne]
      rw [convertParamsList_comma ps hne, List.dropLast_concat]
    have hK := dropComma_metrics (convertParamsList ps).dropLast
      (by rw [← hcomma]; exact hcl.1) (by rw [← hcomma]; exact hcl.2.1)
    have hKh : pHigh (convertParamsList ps).dropLast = (paramDepthList ps : Int) := by
      rw [hK.2.2, ← hcomma]; exact hcl.2.2
    have e : convertParamsArray (.list ps)
        = (("c(").data) ++ ((convertParamsList ps).dropLast ++ (("),").data)) := by
      show ((("c(").data ++ convertParamsList ps).dropLast) ++ (("),").data) = _
      conv_lhs => rw [hcomma]
      rw [show (("c(").data ++ ((convertParamsList ps).dropLast ++ [','])) =
            ((("c(").data ++ (convertParamsList ps).dropLast) ++ [',']) by simp]
      rw [List.dropLast_concat]
      simp
    have ed : paramDepth (.list ps) = 1 + paramDepthList ps := rfl
    rw [e]
    simp only [pDelta_append, pLow_append, pHigh_append]
    have c1 : pDelta (("c(").data) = 1 := by decide
    have c2 : pLow (("c(").data) = 0 := by decide
    have c3 : pHigh (("c(").data) = 1 := by decide
    have c4 : pDelta (("),").data) = -1 := by decide
    have c5 : pLow (("),").data) = -1 := by decide
    have c6 : pHigh (("),").data) = 0 := by decide
    have edi : ((paramDepth (RParam.list ps) : Nat) : Int)
        = 1 + (paramDepthList ps : Int) := by
      rw [ed]; push_cast; ring
    rw [c1, c2, c3, c4, c5, c6, hK.1, hK.2.1, hKh, edi]
    omega

theorem convertParamsList_metrics (ps : List RParam) (h : goodParamList ps = true) :
    pDelta (convertParamsList ps) = 0 ∧ pLow (convertParamsList ps) = 0 ∧
      pHigh (convertParamsList ps) = (paramDepthList ps : Int) := by
  match ps with
  | [] => exact ⟨by decide, by decide, by decide⟩
  | p :: ps =>
    rw [goodParamList] at h
    simp only [Bool.and_eq_true] at h
    have h1 := convertParamsArray_metrics p h.1
    have h2 := convertParamsList_metrics ps h.2
    have e : convertParamsList (p :: ps) = convertParamsArray p ++ convertParamsList ps := rfl
    have ed : paramDepthList (p :: ps) = max (paramDepth p) (paramDepthList ps) := rfl
    have edi : ((paramDepthList (p :: ps) : Nat) : Int)
        = max ((paramDepth p : Nat) : Int) ((paramDepthList ps : Nat) : Int) := by
      rw [ed]; push_cast; rfl
    rw [e]
    simp only [pDelta_append, pLow_append, pHigh_append]
    rw [h1.1, h1.2.1, h1.2.2, h2.1, h2.2.1, h2.2.2, edi]
    omega

end

theorem namedEntry_balance (k : Str) (v : RParam)
    (hk : parenFreeStr k = true) (hv : goodParam v = true) :
    pDelta (namedEntry k v) = 0 ∧ pLow (namedEntry k v) = 0 := by
  have hkm := parenFree_metrics k hk
  match v with
  | .list vs =>
    have hc := convertParamsArray_metrics (.list vs) hv
    have e : namedEntry k (.list vs) = k ++ (['='] ++ convertParamsArray (.list vs)) := rfl
    rw [e]
    simp only [pDelta_append, pLow_append]
    have c1 : pDelta ['='] = 0 := by decide
    have c2 : pLow ['='] = 0 := by decide
    rw [c1, c2, hkm.1, hkm.2.1, hc.1, hc.2.1]
    norm_num
  | .str s =>
    have hs := parenFree_metrics s (by simpa [goodParam] using hv)
    have e : namedEntry k (.str s) = k ++ (['=', '\''] ++ (s ++ (("',").data))) := rfl
    rw [e]
    simp only [pDelta_append, pLow_append]
    have c1 : pDelta ['=', '\''] = 0 := by decide
    have c2 : pLow ['=', '\''] = 0 := by decide
    have c3 : pDelta (("',").data) = 0 := by decide
    have c4 : pLow (("',").data) = 0 := by decide
    rw [c1, c2, c3, c4, hkm.1, hkm.2.1, hs.1, hs.2.1]
    norm_num
  | .num n =>
    have hs := parenFree_metrics (intToStr n) (intToStr_parenFree n)
    have e : namedEntry k (.num n) = (k ++ (['='] ++ intToStr n)) ++ [','] := rfl
    rw [e]
    simp only [pDelta_append, pLow_append]
    have c1 : pDelta ['='] = 0 := by decide
    have c2 : pLow ['='] = 0 := by decide
    have c3 : pDelta [','] = 0 := by decide
    have c4 : pLow [','] = 0 := by decide
    rw [c1, c2, c3, c4, hkm.1, hkm.2.1, hs.1, hs.2.1]
    norm_num
  | .bool b =>
    have e : namedEntry k (.bool b)
        = (k ++ (['='] ++ (if b then ("true").data else ("false").data))) ++ [','] := rfl
    rw [e]
    simp only [pDelta_append, pLow_append]
    have c1 : pDelta (['='] : Str) = 0 := by decide
    have c2 : pLow (['='] : Str) = 0 := by decide
    have c3 : pDelta ([','] : Str) = 0 := by decide
    have c4 : pLow ([','] : Str) = 0 := by decide
    have c5 : pDelta (if b then ("true").data else ("false").data) = 0 := by
      cases b <;> decide
    have c6 : pLow (if b then ("true").data else ("false").data) = 0 := by
      cases b <;> decide
    rw [c1, c2, c3, c4, c5, c6, hkm.1, hkm.2.1]
    norm_num
  | .undef =>
    have e : namedEntry k .undef = k ++ (("=NA,").data) := rfl
    rw [e]
    simp only [pDelta_append, pLow_append]
    have c1 : pDelta (("=NA,").data) = 0 := by decide
    have c2 : pLow (("=NA,").data) = 0 := by decide
    rw [c1, c2, hkm.1, hkm.2.1]
    norm_num

theorem flatten_balance (ls : List Str)
    (h : ∀ l ∈ ls, pDelta l = 0 ∧ pLow l = 0) :
    pDelta ls.flatten = 0 ∧ pLow ls.flatten = 0 := by
  induction ls with
  | nil => exact ⟨by decide, by decide⟩
  | cons l ls ih =>
    have h1 := h l (by simp)
    have h2 := ih (fun x hx => h x (by simp [hx]))
    simp only [List.flatten_cons, pDelta_append, pLow_append]
    rw [h1.1, h1.2, h2.1, h2.2]
    norm_num

theorem named_flatten (kvs : List (Str × RParam)) (hne : kvs ≠ []) :
    (kvs.map (fun kv => namedEntry kv.1 kv.2)).flatten
      = joinSep [','] (kvs.map namedOnce) ++ [','] := by
  rw [flatten_comma_terminated (kvs.map (fun kv => namedEntry kv.1 kv.2))
    (by
      intro l hl
      obtain ⟨kv, _, rfl⟩ := List.mem_map.mp hl
      exact namedEntry_comma kv.1 kv.2)
    (by simpa using hne)]
  congr 1
  congr 1
  rw [List.map_map]
  rfl

/-! ## Shape of the full call expression -/

theorem callMethodSyntax_positional_shape (name : Str) (ps : List RParam) (hne : ps ≠ []) :
    callMethodSyntax name (.positional ps) = canonicalCall name (.positional ps) := by
  show ((name ++ ['(']) ++ convertParamsArray (.list ps)).dropLast ++ [')'] = _
  rw [convertParamsArray_list_shape ps hne]
  have h1 : ("),").data = ([')'] ++ [','] : Str) := rfl
  rw [show (name ++ ['(']) ++ ((("c(").data ++ joinSep [','] (ps.map serializedOnce))
        ++ (("),").data))
      = (((name ++ ['(']) ++ ((("c(").data ++ joinSep [','] (ps.map serializedOnce))
        ++ [')'])) ++ [',']) by
    rw [h1]
    simp]
  rw [List.dropLast_concat]
  show _ = name ++ (("(c(").data) ++ joinSep [','] (ps.map serializedOnce) ++ (("))").data)
  have h2 : ("(c(").data = (['('] ++ ("c(").data : Str) := rfl
  have h3 : ("))").data = ([')'] ++ [')'] : Str) := rfl
  rw [h2, h3]
  simp

theorem callMethodSyntax_named_shape (name : Str) (kvs : List (Str × RParam))
    (hne : kvs ≠ []) :
    callMethodSyntax name (.named kvs) = canonicalCall name (.named kvs) := by
  show ((name ++ ['(']) ++ (kvs.map (fun kv => namedEntry kv.1 kv.2)).flatten).dropLast
      ++ [')'] = _
  rw [named_flatten kvs hne]
  rw [show (name ++ ['(']) ++ (joinSep [','] (kvs.map namedOnce) ++ [','])
      = (((name ++ ['(']) ++ joinSep [','] (kvs.map namedOnce)) ++ [',']) by simp]
  rw [List.dropLast_concat]
  show _ = name ++ '(' :: (joinSep [','] (kvs.map namedOnce) ++ [')'])
  simp

/-- The separator-joined positional parameter body is balanced and its
maximum nesting equals the deepest parameter. -/
theorem joinSep_positional_metrics (ps : List RParam)
    (hne : ps ≠ []) (hgood : goodParamList ps = true) :
    pDelta (joinSep [','] (ps.map serializedOnce)) = 0 ∧
      pLow (joinSep [','] (ps.map serializedOnce)) = 0 := by
  have hJ : joinSep [','] (ps.map serializedOnce) = (convertParamsList ps).dropLast := by
    rw [convertParamsList_comma ps hne, List.dropLast_concat]
  have hcl := convertParamsList_metrics ps hgood
  have hcomma : convertParamsList ps = (convertParamsList ps).dropLast ++ [','] := by
    conv_lhs => rw [convertParamsList_comma ps hne]
    rw [convertParamsList_comma ps hne, List.dropLast_concat]
  have hK := dropComma_metrics (convertParamsList ps).dropLast
    (by rw [← hcomma]; exact hcl.1) (by rw [← hcomma]; exact hcl.2.1)
  rw [hJ]
  exact ⟨hK.1, hK.2.1⟩

/-- The separator-joined named parameter body is balanced. -/
theorem joinSep_named_metrics (kvs : List (Str × RParam)) (hne : kvs ≠ [])
    (hgood : kvs.all (fun kv => parenFreeStr kv.1 && goodParam kv.2) = true) :
    pDelta (joinSep [','] (kvs.map namedOnce)) = 0 ∧
      pLow (joinSep [','] (kvs.map namedOnce)) = 0 := by
  have hfl := flatten_balance (kvs.map (fun kv => namedEntry kv.1 kv.2))
    (by
      intro l hl
      obtain ⟨kv, hkv, rfl⟩ := List.mem_map.mp hl
      have := List.all_eq_true.mp hgood kv hkv
      simp only [Bool.and_eq_true] at this
      exact namedEntry_balance kv.1 kv.2 this.1 this.2)
  rw [named_flatten kvs hne] at hfl
  have h1 : pDelta [','] = 0 := by decide
  have h2 : pLow [','] = 0 := by decide
  rw [pDelta_append, pLow_append, h1, h2] at hfl
  have h4 := pLow_nonpos (joinSep [','] (kvs.map namedOnce))
  obtain ⟨ha, hb⟩ := hfl
  constructor
  · omega
  · omega

/-! ## Claim C1 -/

/-- C1 (amended): for every parameter input whose lists are non-empty at every
nesting level (and whose named map is non-empty), with parenthesis-free
strings and method name, the built call expression equals the canonical shape
`name(...)` — every parameter serialized exactly once, joined by single
separators, trailing separator stripped — and has balanced parentheses.
(The original claim also covered the empty list and empty map; there the
`slice(0, -1)` deletes a parenthesis instead of a separator, see the
counterexample.) -/
theorem c1_call_shape_balanced (name : Str) (params : RParams)
    (hp : goodParams params = true) (hn : parenFreeStr name = true) :
    callMethodSyntax name params = canonicalCall name params ∧
      balancedStr (callMethodSyntax name params) := by
  have hnm := parenFree_metrics name hn
  match params with
  | .positional ps =>
    have hp' : goodParam (.list ps) = true := hp
    rw [goodParam] at hp'
    simp only [Bool.and_eq_true, Bool.not_eq_true'] at hp'
    obtain ⟨hne0, hgood⟩ := hp'
    have hne : ps ≠ [] := by
      intro hnil
      rw [hnil] at hne0
      simp at hne0
    have hshape := callMethodSyntax_positional_shape name ps hne
    refine ⟨hshape, ?_⟩
    rw [hshape]
    have hJ := joinSep_positional_metrics ps hne hgood
    have e : canonicalCall name (.positional ps)
        = ((name ++ (['(', 'c', '('] : Str)) ++ joinSep [','] (ps.map serializedOnce))
          ++ ([')', ')'] : Str) := rfl
    rw [e]
    have c1 : pDelta (['(', 'c', '('] : Str) = 2 := by decide
    have c2 : pDelta ([')', ')'] : Str) = -2 := by decide
    have c3 : pLow (['(', 'c', '('] : Str) = 0 := by decide
    have c4 : pLow ([')', ')'] : Str) = -2 := by decide
    have hd1 := hnm.1
    have hd2 := hnm.2.1
    have hd3 := hJ.1
    have hd4 := hJ.2
    constructor
    · simp only [pDelta_append]
      omega
    · simp only [pLow_append, pDelta_append]
      omega
  | .named kvs =>
    have hp' : (!kvs.isEmpty && kvs.all (fun kv => parenFreeStr kv.1 && goodParam kv.2))
        = true := hp
    simp only [Bool.and_eq_true, Bool.not_eq_true'] at hp'
    obtain ⟨hne0, hgood⟩ := hp'
    have hne : kvs ≠ [] := by
      intro hnil
      rw [hnil] at hne0
      simp at hne0
    have hshape := callMethodSyntax_named_shape name kvs hne
    refine ⟨hshape, ?_⟩
    rw [hshape]
    have hJ := joinSep_named_metrics kvs hne hgood
    have e : canonicalCall name (.named kvs)
        = name ++ ((['('] : Str) ++ (joinSep [','] (kvs.map namedOnce) ++ ([')'] : Str)))
        := rfl
    rw [e]
    have c1 : pDelta (['('] : Str) = 1 := by decide
    have c2 : pDelta ([')'] : Str) = -1 := by decide
    have c3 : pLow (['('] : Str) = 0 := by decide
    have c4 : pLow ([')'] : Str) = -1 := by decide
    have hd1 := hnm.1
    have hd2 := hnm.2.1
    have hd3 := hJ.1
    have hd4 := hJ.2
    constructor
    · simp only [pDelta_append]
      omega
    · simp only [pLow_append, pDelta_append]
      omega

/-- C1 counterexample: on the empty positional list (and empty named map) the
built call expression is *not* balanced — `slice(0, -1)` removes the `c(`
group's opening parenthesis instead of a trailing separator, yielding
`f(c))` (resp. `f)`). -/
theorem c1_counterexample :
    callMethodSyntax (("f").data) (.positional []) = ("f(c))").data ∧
      ¬ balancedStr (callMethodSyntax (("f").data) (.positional [])) ∧
    callMethodSyntax (("f").data) (.named []) = ("f)").data ∧
      ¬ balancedStr (callMethodSyntax (("f").data) (.named [])) := by
  refine ⟨by decide, by decide, by decide, by decide⟩

/-- C1 witness: the amended theorem applied at `f(1, "x")` and `g(a=2)`. -/
theorem c1_witness :
    (goodParams (.positional [.num 1, .str (("x").data)]) = true ∧
      parenFreeStr (("f").data) = true ∧
      (callMethodSyntax (("f").data) (.positional [.num 1, .str (("x").data)])
          = canonicalCall (("f").data) (.positional [.num 1, .str (("x").data)]) ∧
        balancedStr (callMethodSyntax (("f").data)
          (.positional [.num 1, .str (("x").data)])))) ∧
    (goodParams (.named [((("a").data), .num 2)]) = true ∧
      (callMethodSyntax (("g").data) (.named [((("a").data), .num 2)])
          = canonicalCall (("g").data) (.named [((("a").data), .num 2)]) ∧
        balancedStr (callMethodSyntax (("g").data) (.named [((("a").data), .num 2)])))) :=
  ⟨⟨by decide, by decide,
      c1_call_shape_balanced (("f").data) (.positional [.num 1, .str (("x").data)])
        (by decide) (by decide)⟩,
    ⟨by decide,
      c1_call_shape_balanced (("g").data) (.named [((("a").data), .num 2)])
        (by decide) (by decide)⟩⟩

/-! ## Claim C6 -/

/-- C6: for every non-empty (at all levels) list parameter value, the
serialization is structurally recursive — one `c( ... )` wrapper joining the
recursively serialized elements in order — and the raw parenthesis nesting
depth of the output equals the input nesting depth exactly.  (Depth is
measured by parenthesis counting, so string scalars are required to be
parenthesis-free.) -/
theorem c6_nested_list_depth (ps : List RParam) (h : goodParam (.list ps) = true) :
    convertParamsArray (.list ps)
      = (("c(").data) ++ joinSep [','] (ps.map serializedOnce) ++ (("),").data) ∧
    pHigh (convertParamsArray (.list ps)) = (paramDepth (.list ps) : Int) := by
  have h' := h
  rw [goodParam] at h'
  simp only [Bool.and_eq_true, Bool.not_eq_true'] at h'
  have hne : ps ≠ [] := by cases ps <;> simp_all
  exact ⟨convertParamsArray_list_shape ps hne,
    (convertParamsArray_metrics (.list ps) h).2.2⟩

/-- C6 witness: the list `[[1, 2], 3]` has depth 2 and serializes to
`c(c(1,2),3),` whose parenthesis nesting depth is 2. -/
theorem c6_witness :
    goodParam (.list [.list [.num 1, .num 2], .num 3]) = true ∧
    (convertParamsArray (.list [.list [.num 1, .num 2], .num 3])
        = (("c(").data) ++ joinSep [',']
            (([RParam.list [.num 1, .num 2], .num 3]).map serializedOnce)
          ++ (("),").data) ∧
      pHigh (convertParamsArray (.list [.list [.num 1, .num 2], .num 3]))
        = (paramDepth (.list [.list [.num 1, .num 2], .num 3]) : Int)) ∧
    convertParamsArray (.list [.list [.num 1, .num 2], .num 3])
      = ("c(c(1,2),3),").data ∧
    paramDepth (.list [.list [.num 1, .num 2], .num 3]) = 2 :=
  ⟨by decide,
    c6_nested_list_depth [.list [.num 1, .num 2], .num 3] (by decide),
    by decide, by decide⟩

/-! ## Claim C8 -/

theorem serializedOnce_str (s : Str) : serializedOnce (.str s) = '\'' :: (s ++ ['\'']) := by
  unfold serializedOnce
  have e : convertParamsArray (.str s) = ('\'' :: (s ++ ['\''])) ++ [','] := by
    show '\'' :: (s ++ (("',").data)) = _
    simp
  rw [e, List.dropLast_concat]

theorem namedOnce_str (k s : Str) :
    namedOnce (k, .str s) = k ++ ('=' :: '\'' :: (s ++ ['\''])) := by
  unfold namedOnce
  have e : namedEntry k (.str s) = (k ++ ('=' :: '\'' :: (s ++ ['\'']))) ++ [','] := by
    show k ++ ('=' :: '\'' :: (s ++ (("',").data))) = _
    simp
  rw [e, List.dropLast_concat]

theorem namedOnce_undef (k : Str) :
    namedOnce (k, .undef) = k ++ (("=NA").data) := by
  unfold namedOnce
  have e : namedEntry k .undef = (k ++ (("=NA").data)) ++ [','] := by
    show k ++ (("=NA,").data) = _
    simp
  rw [e, List.dropLast_concat]

/-- C8: in both positional and named calls, a string value (including one
with embedded single quotes) is emitted verbatim between single quotes with
no escaping, and an undefined value is always emitted as the literal `NA`,
never as an empty token. -/
theorem c8_scalar_serialization (name k s : Str) :
    callMethodSyntax name (.positional [.str s])
      = name ++ ('(' :: 'c' :: '(' :: '\'' :: (s ++ ['\'', ')', ')'])) ∧
    callMethodSyntax name (.named [(k, .str s)])
      = name ++ ('(' :: (k ++ ('=' :: '\'' :: (s ++ ['\'', ')'])))) ∧
    callMethodSyntax name (.positional [.undef])
      = name ++ (("(c(NA))").data) ∧
    callMethodSyntax name (.named [(k, .undef)])
      = name ++ ('(' :: (k ++ (("=NA)").data))) ∧
    convertParamsArray (.str (("a'b").data)) = ("'a'b',").data := by
  refine ⟨?_, ?_, ?_, ?_, by decide⟩
  · rw [callMethodSyntax_positional_shape name [.str s] (by simp)]
    show ((name ++ ['(', 'c', '(']) ++ joinSep [','] ([RParam.str s].map serializedOnce))
        ++ [')', ')'] = _
    rw [show joinSep [','] ([RParam.str s].map serializedOnce)
        = serializedOnce (.str s) from rfl]
    rw [serializedOnce_str]
    simp
  · rw [callMethodSyntax_named_shape name [(k, .str s)] (by simp)]
    show name ++ ('(' :: (joinSep [','] ([(k, RParam.str s)].map namedOnce) ++ [')'])) = _
    rw [show joinSep [','] ([(k, RParam.str s)].map namedOnce)
        = namedOnce (k, .str s) from rfl]
    rw [namedOnce_str]
    simp
  · rw [callMethodSyntax_positional_shape name [.undef] (by simp)]
    show ((name ++ ['(', 'c', '(']) ++ joinSep [','] ([RParam.undef].map serializedOnce))
        ++ [')', ')'] = _
    rw [show joinSep [','] ([RParam.undef].map serializedOnce)
        = serializedOnce .undef from rfl]
    rw [show serializedOnce RParam.undef = (("NA").data : Str) from rfl]
    show ((name ++ ['(', 'c', '(']) ++ ['N', 'A']) ++ [')', ')']
        = name ++ (['(', 'c', '(', 'N', 'A', ')', ')'] : Str)
    simp
  · rw [callMethodSyntax_named_shape name [(k, .undef)] (by simp)]
    show name ++ ('(' :: (joinSep [','] ([(k, RParam.undef)].map namedOnce) ++ [')'])) = _
    rw [show joinSep [','] ([(k, RParam.undef)].map namedOnce)
        = namedOnce (k, .undef) from rfl]
    rw [namedOnce_undef]
    show name ++ ('(' :: ((k ++ ['=', 'N', 'A']) ++ [')']))
        = name ++ ('(' :: (k ++ (['=', 'N', 'A', ')'] : Str)))
    simp

/-! ## Facade lemmas and concrete environments -/

theorem consHead_ne_nil (c : Char) (l : List Str) : consHead c l ≠ [] := by
  cases l <;> simp [consHead]

theorem jsSplit_ne_nil (p : Char → Bool) (s : Str) : jsSplit p s ≠ [] := by
  induction s with
  | nil => simp [jsSplit]
  | cons c cs ih =>
    by_cases hc : p c = true
    · cases cs with
      | nil =>
        have e : jsSplit p [c] = [] :: jsSplit p [] := by
          conv_lhs => unfold jsSplit
          try dsimp only
          rw [if_pos hc]
        rw [e]
        simp
      | cons c2 cs2 =>
        by_cases hc2 : p c2 = true
        · have e : jsSplit p (c :: c2 :: cs2) = jsSplit p (c2 :: cs2) := by
            conv_lhs => unfold jsSplit
            try dsimp only
            rw [if_pos hc, if_pos hc2]
          rw [e]
          exact ih
        · have e : jsSplit p (c :: c2 :: cs2) = [] :: jsSplit p (c2 :: cs2) := by
            conv_lhs => unfold jsSplit
            try dsimp only
            rw [if_pos hc, if_neg hc2]
          rw [e]
          simp
    · have e : jsSplit p (c :: cs) = consHead c (jsSplit p cs) := by
        conv_lhs => unfold jsSplit
        try dsimp only
        rw [if_neg hc]
      rw [e]
      exact consHead_ne_nil c (jsSplit p cs)

theorem filterMultiline_ne_nil (os s : Str) : filterMultiline os s ≠ [] := by
  unfold filterMultiline
  cases hj : jsonParse (if os = ("win").data
      then collapseWs (("\r\n").data) (stripTrailingWs (stripIdx s))
      else collapseWs (("\n").data) (stripTrailingWs (stripIdx s))) with
  | some v => simp [hj]
  | none =>
    simp only [hj]
    split
    · simp [jsSplit_ne_nil]
    · simp [jsSplit_ne_nil]

theorem jsTruthyOpt_getD (o : Option Str) : jsTruthyOpt o = !(o.getD []).isEmpty := by
  cases o with
  | none => simp [jsTruthyOpt]
  | some s => simp [jsTruthyOpt]

theorem getCurrentOs_mem (p : Str) :
    getCurrentOs p = ("win").data ∨ getCurrentOs p = ("lin").data
      ∨ getCurrentOs p = ("mac").data := by
  unfold getCurrentOs
  split
  · exact Or.inl rfl
  · split
    · exact Or.inr (Or.inl rfl)
    · exact Or.inr (Or.inr rfl)

/-! ## Claim C2 -/

/-- C2 (amended): the synchronous executor's result has exactly one side
populated — stdout on success, the caught error on failure, never both.  The
asynchronous executor, however, always fills *both* fields of its result
(`stderr` is the error's message on failure and the raw stderr stream
otherwise), and both can be non-empty at once. -/
theorem c2_sync_exclusive_async_both :
    (∀ o : ExecOutcome,
      ((executeShellCommand o).stdout.isSome = true
        ↔ (executeShellCommand o).stderr.isNone = true)) ∧
    (∀ ao : AsyncOutcome,
      (execShellCommandAsync ao).stdout = ao.stdout ∧
      (execShellCommandAsync ao).stderr
        = (match ao.err with | some e => e.message | none => ao.stderrStream)) ∧
    (∃ ao : AsyncOutcome,
      (execShellCommandAsync ao).stdout ≠ [] ∧ (execShellCommandAsync ao).stderr ≠ []) := by
  refine ⟨?_, ?_, ?_⟩
  · intro o
    cases o with
    | success out => simp [executeShellCommand]
    | failure e => simp [executeShellCommand]
  · intro ao
    exact ⟨rfl, rfl⟩
  · exact ⟨⟨none, ("out").data, ("warn").data⟩, by decide, by decide⟩

/-- C2 counterexample: a subprocess that exits successfully while writing to
its stderr stream makes `execShellCommandAsync` resolve with *both* fields
non-empty, contradicting "exactly one side populated, never both". -/
theorem c2_counterexample :
    (execShellCommandAsync ⟨none, ("out").data, ("warn").data⟩).stdout ≠ [] ∧
    (execShellCommandAsync ⟨none, ("out").data, ("warn").data⟩).stderr ≠ [] :=
  ⟨by decide, by decide⟩

/-! ## Claim C9 -/

/-- C9: the platform classifier returns exactly one of `win`, `lin`, `mac`
(everything not Windows or Linux/BSD falls through to `mac`), so the engine
locator's `Cannot determine OS type` branch is unreachable: no environment
and no override path can produce the unsupported-platform error. -/
theorem c9_unsupported_platform_unreachable :
    (∀ platform : Str,
      getCurrentOs platform = ("win").data ∨ getCurrentOs platform = ("lin").data
        ∨ getCurrentOs platform = ("mac").data) ∧
    (∀ (env : Env) (loc : Option Str),
      getRscriptPath env loc ≠ .error .cannotDetermineOs) := by
  refine ⟨getCurrentOs_mem, ?_⟩
  intro env loc h
  simp only [getRscriptPath] at h
  rcases getCurrentOs_mem env.platform with hos | hos | hos
  · rw [hos, if_pos rfl] at h
    repeat' split at h
    all_goals simp_all
  · rw [hos, if_neg (by decide), if_pos (Or.inr rfl)] at h
    repeat' split at h
    all_goals simp_all
  · rw [hos, if_neg (by decide), if_pos (Or.inl rfl)] at h
    repeat' split at h
    all_goals simp_all

/-! ## Claim C3 -/

/-- C3 (amended): on a Unix-like classification with a truthy override
directory `d` whose composed executable location `d/Rscript` does not exist,
the locator fails with the engine-not-found error — but the path it carries
is the *composed* location `pt.join(d, "Rscript")`, not the override
directory `d` itself (the source reassigns `path` before throwing). -/
theorem c3_override_engine_not_found (env : Env) (d : Str)
    (hos : getCurrentOs env.platform = ("lin").data
      ∨ getCurrentOs env.platform = ("mac").data)
    (hd : d ≠ [])
    (hfs : env.fsExists (pjoin2 '/' d (("Rscript").data)) = false) :
    getRscriptPath env (some d)
      = .error (.engineNotFound (some (pjoin2 '/' d (("Rscript").data)))) := by
  have hw : ¬ getCurrentOs env.platform = ("win").data := by
    rcases hos with h | h <;> rw [h] <;> decide
  have hml : getCurrentOs env.platform = ("mac").data
      ∨ getCurrentOs env.platform = ("lin").data := hos.symm
  have htr : jsTruthyOpt (some d) = true := by
    simp [jsTruthyOpt, hd]
  simp only [getRscriptPath]
  rw [if_neg hw, if_pos hml, if_pos htr]
  simp only [Option.getD_some]
  rw [hfs]
  simp [jsTruthyOpt]

/-- C3 counterexample: with override directory `/opt/rbin` (no such file
exists), the error carries `/opt/rbin/Rscript`, which differs from the
override directory `/opt/rbin` the claim says it must carry exactly. -/
theorem c3_counterexample :
    getRscriptPath linNoFsEnv (some (("/opt/rbin").data))
        = .error (.engineNotFound (some (("/opt/rbin/Rscript").data))) ∧
      (("/opt/rbin/Rscript").data : Str) ≠ ("/opt/rbin").data :=
  ⟨rfl, by decide⟩

/-- C3 witness: the amended theorem applied to `linNoFsEnv` and `/opt/rbin`. -/
theorem c3_witness :
    (getCurrentOs linNoFsEnv.platform = ("lin").data
      ∨ getCurrentOs linNoFsEnv.platform = ("mac").data) ∧
    (("/opt/rbin").data : Str) ≠ [] ∧
    linNoFsEnv.fsExists (pjoin2 '/' (("/opt/rbin").data) (("Rscript").data)) = false ∧
    getRscriptPath linNoFsEnv (some (("/opt/rbin").data))
      = .error (.engineNotFound (some (pjoin2 '/' (("/opt/rbin").data)
          (("Rscript").data)))) :=
  ⟨Or.inl (by decide), by decide, by decide,
    c3_override_engine_not_found linNoFsEnv (("/opt/rbin").data)
      (Or.inl (by decide)) (by decide) (by decide)⟩

theorem filterMultiline_cases (os raw : Str) :
    filterMultiline os raw
      = (match jsonParse (normalizeOut os raw) with
        | some v => [.jsonVal v]
        | none => (jsSplit (sepClass os) (normalizeOut os raw)).map tokenMap) := by
  unfold filterMultiline normalizeOut sepClass
  by_cases how : os = ("win").data <;> simp [how]

/-- C4: `parse` first normalizes the raw text; if the whole normalized string
decodes as one JSON value the result is the single-element sequence holding
that value (so `parse "5"` is the one-element sequence holding the JSON
number `5`); otherwise the normalized string is split on the platform line
separator and each token maps to the missing-value marker (`NA`), the
not-a-number marker (`NaN`), or its own text with all `"` stripped. -/
theorem c4_output_parser_spec (os raw : Str) :
    (∀ v, jsonParse (normalizeOut os raw) = some v →
      filterMultiline os raw = [.jsonVal v]) ∧
    (jsonParse (normalizeOut os raw) = none →
      filterMultiline os raw
        = (jsSplit (sepClass os) (normalizeOut os raw)).map (fun t =>
            if t = ("NA").data then .undef
            else if t = ("NaN").data then .nan
            else .strTok (t.filter (fun c => c ≠ '"')))) ∧
    filterMultiline (("lin").data) (("5").data) = [.jsonVal (.jnum (("5").data))] := by
  refine ⟨?_, ?_, ?_⟩
  · intro v hv
    rw [filterMultiline_cases, hv]
  · intro hn
    rw [filterMultiline_cases, hn]
    rfl
  · rfl

/-- C4 witness: the fallback branch applied to the raw output `[1] NA\n`,
which normalizes to `NA` (not JSON), splits to one token, and maps to the
missing-value marker. -/
theorem c4_witness :
    jsonParse (normalizeOut (("lin").data) (("[1] NA\n").data)) = none ∧
    filterMultiline (("lin").data) (("[1] NA\n").data)
      = (jsSplit (sepClass (("lin").data))
          (normalizeOut (("lin").data) (("[1] NA\n").data))).map (fun t =>
            if t = ("NA").data then .undef
            else if t = ("NaN").data then .nan
            else .strTok (t.filter (fun c => c ≠ '"'))) ∧
    filterMultiline (("lin").data) (("[1] NA\n").data) = [.undef] :=
  ⟨rfl, (c4_output_parser_spec (("lin").data) (("[1] NA\n").data)).2.1 rfl, rfl⟩

/-! ## Claim C5 -/

/-- C5: once the engine is located, an expression or script-file invocation
raises the script-execution error iff the subprocess produced no (truthy)
stdout, and the raised error carries the captured stderr diagnostic
(`RScriptError(commandResult.stderr)`); when stdout is non-empty, the parsed
output is returned and no error is raised. -/
theorem c5_script_error_iff (env : Env) (command fileLocation : Str)
    (loc : Option Str) (rpath : Str)
    (hloc : getRscriptPath env loc = .ok rpath) :
    (jsTruthyOpt (executeShellCommand (env.shell (buildECmd rpath command))).stdout
        = true →
      executeRCommand env command loc
        = .ok (filterMultiline (getCurrentOs env.platform)
            ((executeShellCommand (env.shell (buildECmd rpath command))).stdout.getD []))) ∧
    (jsTruthyOpt (executeShellCommand (env.shell (buildECmd rpath command))).stdout
        = false →
      executeRCommand env command loc
        = .error (.script
            ⟨syncDiag (executeShellCommand (env.shell (buildECmd rpath command))).stderr⟩)) ∧
    (env.fsExists fileLocation = true →
      (jsTruthyOpt (executeShellCommand
          (env.shell (buildScriptCmd rpath fileLocation))).stdout = true →
        executeRScript env fileLocation loc
          = .ok (filterMultiline (getCurrentOs env.platform)
              ((executeShellCommand
                (env.shell (buildScriptCmd rpath fileLocation))).stdout.getD []))) ∧
      (jsTruthyOpt (executeShellCommand
          (env.shell (buildScriptCmd rpath fileLocation))).stdout = false →
        executeRScript env fileLocation loc
          = .error (.script
              ⟨syncDiag (executeShellCommand
                (env.shell (buildScriptCmd rpath fileLocation))).stderr⟩))) := by
  refine ⟨?_, ?_, ?_⟩
  · intro ht
    simp [executeRCommand, hloc, ht]
  · intro hf
    simp [executeRCommand, hloc, hf]
  · intro hex
    refine ⟨?_, ?_⟩
    · intro ht
      simp [executeRScript, hloc, hex, ht]
    · intro hf
      simp [executeRScript, hloc, hex, hf]

/-- C5 witness: with `locEnv` the locator resolves `/usr/bin/Rscript` via
`which`; the expression subprocess then fails (no stdout), and the façade
raises the script-execution error carrying the caught error object. -/
theorem c5_witness :
    getRscriptPath locEnv none = .ok (("/usr/bin/Rscript").data) ∧
    jsTruthyOpt (executeShellCommand
      (locEnv.shell (buildECmd (("/usr/bin/Rscript").data) (("1+1").data)))).stdout
        = false ∧
    executeRCommand locEnv (("1+1").data) none
      = .error (.script ⟨syncDiag (executeShellCommand
          (locEnv.shell (buildECmd (("/usr/bin/Rscript").data)
            (("1+1").data)))).stderr⟩) :=
  ⟨rfl, by decide,
    (c5_script_error_iff locEnv (("1+1").data) [] none (("/usr/bin/Rscript").data)
      rfl).2.1 (by decide)⟩

/-! ## Claim C7 -/

/-- C7: the synchronous and asynchronous expression runners share one
contract — whenever the underlying subprocess yields the same stdout and the
same failure-diagnostic content for every command line, both runners produce
the same outcome: the same parsed sequence on success, and a
script-execution error carrying the same diagnostic content on failure. -/
theorem c7_sync_async_contract (env : Env) (command : Str) (loc : Option Str)
    (h1 : ∀ c : Str, (executeShellCommand (env.shell c)).stdout.getD []
        = (execShellCommandAsync (env.shellAsync c)).stdout)
    (h2 : ∀ c : Str, diagContent (syncDiag (executeShellCommand (env.shell c)).stderr)
        = (execShellCommandAsync (env.shellAsync c)).stderr) :
    outcomeView (executeRCommand env command loc)
      = outcomeView (executeRCommandAsync env command loc) := by
  unfold executeRCommand executeRCommandAsync
  cases hloc : getRscriptPath env loc with
  | error e => rfl
  | ok rpath =>
    try dsimp only
    have hs := h1 (buildECmd rpath command)
    have hd := h2 (buildECmd rpath command)
    have htr : jsTruthyOpt (executeShellCommand
        (env.shell (buildECmd rpath command))).stdout
        = !(execShellCommandAsync
            (env.shellAsync (buildECmd rpath command))).stdout.isEmpty := by
      rw [jsTruthyOpt_getD, hs]
    split
    next hsync =>
      split
      next hasync =>
        simp only [outcomeView]
        rw [hs]
      next hasync =>
        exfalso
        rw [htr] at hsync
        simp_all
    next hsync =>
      split
      next hasync =>
        exfalso
        rw [htr] at hsync
        simp_all
      next hasync =>
        simp only [outcomeView]
        try dsimp only
        rw [hd]
        rfl

/-- C7 witness: with `agreeEnv` both paths observe stdout `7\n` and an empty
diagnostic for every command, and both runners produce the same outcome. -/
theorem c7_witness :
    (∀ c : Str, (executeShellCommand (agreeEnv.shell c)).stdout.getD []
        = (execShellCommandAsync (agreeEnv.shellAsync c)).stdout) ∧
    (∀ c : Str, diagContent (syncDiag (executeShellCommand (agreeEnv.shell c)).stderr)
        = (execShellCommandAsync (agreeEnv.shellAsync c)).stderr) ∧
    outcomeView (executeRCommand agreeEnv (("1+1").data) none)
      = outcomeView (executeRCommandAsync agreeEnv (("1+1").data) none) :=
  ⟨fun c => rfl, fun c => rfl,
    c7_sync_async_contract agreeEnv (("1+1").data) none (fun c => rfl) (fun c => rfl)⟩

/-! ## Claim C10 -/

/-- C10: a subprocess that exits successfully but writes nothing to stdout is
treated as a failure: the façade raises the script-execution error, whose
diagnostic is absent (`undefined`) on the synchronous path and empty on the
asynchronous path when stderr is also empty; and a successful façade result
is never the empty sequence. -/
theorem c10_silent_script (env : Env) (command fileLocation : Str)
    (loc : Option Str) (rpath : Str)
    (hloc : getRscriptPath env loc = .ok rpath) :
    (env.shell (buildECmd rpath command) = .success [] →
      executeRCommand env command loc = .error (.script ⟨Diag.jsUndefined⟩) ∧
        diagContent Diag.jsUndefined = []) ∧
    (env.shellAsync (buildECmd rpath command) = ⟨none, [], []⟩ →
      executeRCommandAsync env command loc = .error (.script ⟨.text []⟩) ∧
        diagContent (.text []) = []) ∧
    (env.fsExists fileLocation = true →
      env.shell (buildScriptCmd rpath fileLocation) = .success [] →
      executeRScript env fileLocation loc = .error (.script ⟨Diag.jsUndefined⟩)) ∧
    (∀ l, executeRCommand env command loc = .ok l → l ≠ []) ∧
    (∀ l, executeRCommandAsync env command loc = .ok l → l ≠ []) := by
  refine ⟨?_, ?_, ?_, ?_, ?_⟩
  · intro hs
    refine ⟨?_, rfl⟩
    simp [executeRCommand, hloc, hs, executeShellCommand, jsTruthyOpt, syncDiag]
  · intro hs
    refine ⟨?_, rfl⟩
    simp [executeRCommandAsync, hloc, hs, execShellCommandAsync]
  · intro hex hs
    simp [executeRScript, hloc, hex, hs, executeShellCommand, jsTruthyOpt, syncDiag]
  · intro l hl
    unfold executeRCommand at hl
    rw [hloc] at hl
    dsimp only at hl
    split at hl
    · first
        | (simp only [Except.ok.injEq] at hl
           rw [← hl]
           exact filterMultiline_ne_nil _ _)
        | simp at hl
    · first
        | (simp only [Except.ok.injEq] at hl
           rw [← hl]
           exact filterMultiline_ne_nil _ _)
        | simp at hl
  · intro l hl
    unfold executeRCommandAsync at hl
    rw [hloc] at hl
    dsimp only at hl
    split at hl
    · first
        | (simp only [Except.ok.injEq] at hl
           rw [← hl]
           exact filterMultiline_ne_nil _ _)
        | simp at hl
    · first
        | (simp only [Except.ok.injEq] at hl
           rw [← hl]
           exact filterMultiline_ne_nil _ _)
        | simp at hl

/-- C10 witness: with `silentEnv` (every subprocess exits successfully with
empty stdout and stderr) and override directory `/opt`, both runners raise
the script-execution error with an absent/empty diagnostic. -/
theorem c10_witness :
    getRscriptPath silentEnv (some (("/opt").data)) = .ok (("/opt/Rscript").data) ∧
    (executeRCommand silentEnv (("1+1").data) (some (("/opt").data))
        = .error (.script ⟨Diag.jsUndefined⟩) ∧
      diagContent Diag.jsUndefined = []) ∧
    (executeRCommandAsync silentEnv (("1+1").data) (some (("/opt").data))
        = .error (.script ⟨.text []⟩) ∧
      diagContent (.text []) = []) :=
  ⟨rfl,
    (c10_silent_script silentEnv (("1+1").data) [] (some (("/opt").data))
      (("/opt/Rscript").data) rfl).1 rfl,
    (c10_silent_script silentEnv (("1+1").data) [] (some (("/opt").data))
      (("/opt/Rscript").data) rfl).2.1 rfl⟩
